import Mathlib

/-!
Verification of the natural-language specification of the
google-adk-fullstack-template backend against a shallow embedding of its
Python source (src/backend).  The embedding models Python dictionaries as
association lists with insert-or-replace semantics, Python truthiness of
optional strings explicitly, and the relevant classes
(APIProxyHandler, ServiceFactory, AuthService, SpecLoader, ToolRegistry,
InMemoryAuthBackend) as pure functions over explicit state.
-/

namespace AdkTemplate

/-- Model of a Python dict keyed by strings: an association list whose keys
are pairwise distinct in every state reachable by the operations below.
Lookup scans from the front, matching dict.get. -/
def dictGet {α : Type} (k : String) : List (String × α) → Option α
  | [] => none
  | kv :: rest => if kv.1 = k then some kv.2 else dictGet k rest

/-- Model of a Python dict assignment d[k] = v: replace the value in place
when the key is present (keys are unique in reachable states), otherwise
append the new binding at the end, as CPython dicts do. -/
def dictInsert {α : Type} (k : String) (v : α) : List (String × α) → List (String × α)
  | [] => [(k, v)]
  | kv :: rest => if kv.1 = k then (k, v) :: rest else kv :: dictInsert k v rest

/-- Model of Python dict.update(u): assign every binding of u in order. -/
def dictUpdate {α : Type} (d u : List (String × α)) : List (String × α) :=
  u.foldl (fun acc kv => dictInsert kv.1 kv.2 acc) d

/-- The value the LAST binding of a key in a raw pair list would give; used
to describe the result of folding dict assignments over the list. -/
def dictGetLast {α : Type} (k : String) : List (String × α) → Option α
  | [] => none
  | kv :: rest =>
    match dictGetLast k rest with
    | some v => some v
    | none => if kv.1 = k then some kv.2 else none

/-- Keys of a dict model. -/
def dictKeys {α : Type} (d : List (String × α)) : List String :=
  d.map Prod.fst

/-- Truthiness of a Python optional string: None and the empty string are
falsy, every other string is truthy. -/
def pyTruthy (a : Option String) : Bool :=
  match a with
  | some s => s ≠ ""
  | none => false

/-- Model of the Python expression a or b on optional strings, as used in
phrases like st.auth_mongo_url or st.mongo_url. -/
def pyOrStr (a : Option String) (b : String) : String :=
  match a with
  | some s => if s = "" then b else s
  | none => b

/-- Whether the first list occurs as a leading segment of the second. -/
def segLeads {α : Type} [DecidableEq α] : List α → List α → Bool
  | [], _ => true
  | _ :: _, [] => false
  | a :: as, b :: bs => a = b && segLeads as bs

/-- Whether the first list occurs as a contiguous segment of the second. -/
def segInside {α : Type} [DecidableEq α] : List α → List α → Bool
  | needle, [] => segLeads needle []
  | needle, b :: bs => segLeads needle (b :: bs) || segInside needle bs

/-- Model of the Python expression needle in hay on strings. -/
def strContains (hay needle : String) : Bool :=
  segInside needle.data hay.data

/-- Model of the Python str.lower() call, per character; the strings it is
applied to (header names, auth types) are ASCII. -/
def pyLower (s : String) : String :=
  String.mk (s.data.map Char.toLower)

def slashChar : Char := Char.ofNat 47

/-- Model of the Python str.lstrip applied with the slash character. -/
def lstripSlash (s : String) : String :=
  String.mk (s.data.dropWhile (fun c => c = slashChar))

/-- Model of the Python str.rstrip applied with the slash character. -/
def rstripSlash (s : String) : String :=
  String.mk ((s.data.reverse.dropWhile (fun c => c = slashChar)).reverse)

/-- UTF-8 bytes of a string, modelling the Python str.encode() call. -/
def utf8Bytes (s : String) : List Nat :=
  s.toUTF8.toList.map UInt8.toNat

def base64Alphabet : String :=
  "ABCDEFGHIJKLMNOPQRSTUVWXYZabcdefghijklmnopqrstuvwxyz0123456789+/"

def b64Char (n : Nat) : Char :=
  base64Alphabet.data.getD n (Char.ofNat 65)

/-- Standard base64 of a byte list, modelling base64.b64encode followed by
decode() in APIProxyHandler. -/
def base64EncodeBytes : List Nat → String
  | [] => ""
  | [a] =>
    String.mk [b64Char (a / 4), b64Char (a % 4 * 16)] ++ "=="
  | [a, b] =>
    String.mk [b64Char (a / 4), b64Char (a % 4 * 16 + b / 16), b64Char (b % 16 * 4)] ++ "="
  | a :: b :: c :: rest =>
    String.mk [b64Char (a / 4), b64Char (a % 4 * 16 + b / 16),
      b64Char (b % 16 * 4 + c / 64), b64Char (c % 64)] ++ base64EncodeBytes rest

/-- Model of the auth dict of an APIToolConfig (config.auth in Python, a
Dict[str, Any]); only the keys actually read by _prepare_auth_headers are
represented, an absent key being none. -/
structure AuthDict where
  type : Option String := none
  token_env : Option String := none
  key_env : Option String := none
  location : Option String := none
  key_name : Option String := none
  username_env : Option String := none
  password_env : Option String := none
deriving DecidableEq, Repr

/-- Model of the APIToolConfig dataclass from tools/config_models.py.  The
Python field proxy_prefix is rendered as proxyPrefix. -/
structure APIToolConfig where
  name : String
  spec_url : Option String := none
  base_url : String := ""
  auth : Option AuthDict := none
  operations : Option (List String) := none
  tags : Option (List String) := none
  enabled : Bool := true
  proxyPrefix : Option String := none
deriving DecidableEq, Repr

/-- Model of os.environ as a dict from variable names to values. -/
abbrev Env := List (String × String)

/-- Model of APIProxyHandler._prepare_auth_headers: builds the auth header
dict from the config's auth dict and the process environment. -/
def prepare_auth_headers (auth : Option AuthDict) (env : Env) : List (String × String) :=
  match auth with
  | none => []
  | some a =>
    let authType := pyLower ((a.type).getD "")
    if authType = "bearer" then
      match a.token_env with
      | some t =>
        if t = "" then []
        else
          match dictGet t env with
          | some tok => [("Authorization", "Bearer " ++ tok)]
          | none => []
      | none => []
    else if authType = "api_key" then
      match a.key_env with
      | some ke =>
        if ke = "" then []
        else
          match dictGet ke env with
          | some apiKey =>
            let location := pyLower ((a.location).getD "header")
            if location = "header" then
              [((a.key_name).getD "X-API-Key", apiKey)]
            else []
          | none => []
      | none => []
    else if authType = "basic" then
      match a.username_env, a.password_env with
      | some ue, some pe =>
        if ue = "" ∨ pe = "" then []
        else
          match dictGet ue env, dictGet pe env with
          | some username, some password =>
            [("Authorization",
              "Basic " ++ base64EncodeBytes (utf8Bytes (username ++ ":" ++ password)))]
          | _, _ => []
      | _, _ => []
    else []

/-- Header names dropped by APIProxyHandler._prepare_headers when copying
the incoming request's headers. -/
def requestSkipHeaders : List String :=
  ["host", "content-length", "connection", "upgrade",
   "proxy-connection", "proxy-authenticate", "proxy-authorization",
   "te", "trailers", "transfer-encoding"]

/-- Model of APIProxyHandler._prepare_headers: copy each incoming header
whose lowercased name is not in the skip list into a fresh dict, then
update that dict with the auth headers. -/
def prepare_headers (auth : Option AuthDict) (env : Env)
    (reqHeaders : List (String × String)) : List (String × String) :=
  let base := reqHeaders.foldl
    (fun acc kv =>
      if requestSkipHeaders.contains (pyLower kv.1) then acc
      else dictInsert kv.1 kv.2 acc) []
  dictUpdate base (prepare_auth_headers auth env)

/-- Model of the incoming FastAPI request seen by proxy_request: method,
header list as received, raw body bytes and query parameters. -/
structure IncomingRequest where
  method : String
  headers : List (String × String)
  body : List Nat
  query_params : List (String × String)
deriving DecidableEq, Repr

/-- Model of the outgoing httpx client.request call made by proxy_request:
the keyword arguments method, url, headers, content and params. -/
structure OutgoingRequest where
  method : String
  url : String
  headers : List (String × String)
  content : Option (List Nat)
  params : List (String × String)
deriving DecidableEq, Repr

/-- Model of APIProxyHandler._get_request_body: an empty body is turned
into None, otherwise the raw bytes are returned. -/
def get_request_body (req : IncomingRequest) : Option (List Nat) :=
  if req.body = [] then none else some req.body

/-- Model of APIProxyHandler._build_target_url.  The first argument is
self.base_url, already rstripped of trailing slashes by __init__.  The
urljoin call is modelled for its reachable case: the base always ends in a
single slash and the path has been lstripped of leading slashes, so the
join is concatenation. -/
def build_target_url (base : String) (path : String) : String :=
  let p := lstripSlash path
  if base ≠ "" then base ++ "/" ++ p else p

/-- Model of the outgoing request assembled by APIProxyHandler.proxy_request
before the upstream call (target URL, prepared headers, body, params). -/
def outgoingRequest (cfg : APIToolConfig) (path : String) (req : IncomingRequest)
    (env : Env) : OutgoingRequest :=
  { method := req.method
    url := build_target_url (rstripSlash cfg.base_url) path
    headers := prepare_headers cfg.auth env req.headers
    content := get_request_body req
    params := req.query_params }

/-- Minimal JSON value type standing for the Python objects produced by
response.json(). -/
inductive Json where
  | null : Json
  | bool (b : Bool) : Json
  | str (s : String) : Json
  | num (n : Int) : Json
  | arr (xs : List Json) : Json
  | obj (fields : List (String × Json)) : Json
deriving BEq, Repr

/-- Model of an httpx response from the upstream API.  The fields text,
json_result and bytes stand for the library accessors response.text,
response.json() (none when it raises json.JSONDecodeError) and
response.aiter_bytes(). -/
structure UpstreamResponse where
  status_code : Nat
  headers : List (String × String)
  text : String
  json_result : Option Json
  bytes : List Nat

/-- Case-insensitive header lookup, modelling httpx's Headers.get. -/
def ciHeaderGet (k : String) : List (String × String) → Option String
  | [] => none
  | kv :: rest => if pyLower kv.1 = pyLower k then some kv.2 else ciHeaderGet k rest

/-- Header names dropped by APIProxyHandler._process_response when copying
the upstream response's headers. -/
def responseSkipHeaders : List String :=
  ["content-length", "content-encoding", "connection",
   "transfer-encoding", "upgrade"]

/-- The response header dict built at the top of _process_response. -/
def processedResponseHeaders (rh : List (String × String)) : List (String × String) :=
  rh.foldl
    (fun acc kv =>
      if responseSkipHeaders.contains (pyLower kv.1) then acc
      else dictInsert kv.1 kv.2 acc) []

/-- Model of the FastAPI response objects _process_response can build:
JSONResponse, Response with explicit media type, or StreamingResponse. -/
inductive ProxiedResponse where
  | jsonResponse (content : Json) (status_code : Nat) (headers : List (String × String))
  | textResponse (content : String) (status_code : Nat)
      (headers : List (String × String)) (media_type : String)
  | streamingResponse (chunks : List Nat) (status_code : Nat)
      (headers : List (String × String)) (media_type : String)

def ProxiedResponse.status : ProxiedResponse → Nat
  | .jsonResponse _ s _ => s
  | .textResponse _ s _ _ => s
  | .streamingResponse _ s _ _ => s

def ProxiedResponse.headerDict : ProxiedResponse → List (String × String)
  | .jsonResponse _ _ h => h
  | .textResponse _ _ h _ => h
  | .streamingResponse _ _ h _ => h

/-- The content_type local of _process_response:
response.headers.get('content-type', '').lower(). -/
def response_content_type (r : UpstreamResponse) : String :=
  pyLower ((ciHeaderGet "content-type" r.headers).getD "")

/-- Model of APIProxyHandler._process_response.  A none result models the
Python function falling off the end and returning None, which happens when
the content type contains application/json but response.json() raises:
the except clause passes, and the elif branches are not re-examined. -/
def process_response (r : UpstreamResponse) : Option ProxiedResponse :=
  let hs := processedResponseHeaders r.headers
  let ct := response_content_type r
  if strContains ct "application/json" then
    match r.json_result with
    | some j => some (.jsonResponse j r.status_code hs)
    | none => none
  else if strContains ct "text/" || strContains ct "application/xml" then
    some (.textResponse r.text r.status_code hs ct)
  else
    some (.streamingResponse r.bytes r.status_code hs ct)

/-- Outcome of the awaited upstream call inside proxy_request's try block:
either an httpx response, or one of the exception classes the except
clauses distinguish. -/
inductive UpstreamOutcome where
  | success (resp : UpstreamResponse)
  | timeoutExc
  | connectExc
  | otherExc (msg : String)

/-- Model of a FastAPI HTTPException raised by proxy_request. -/
structure HTTPExc where
  status_code : Nat
  detail : String
deriving DecidableEq, Repr

/-- Model of APIProxyHandler.proxy_request: on an upstream response the
processed response is returned (None when _process_response falls
through); an httpx.TimeoutException becomes HTTP 504, an
httpx.ConnectError becomes HTTP 502 and any other exception becomes
HTTP 500. -/
def proxy_request (cfg : APIToolConfig) (path : String) (req : IncomingRequest)
    (env : Env) (outcome : UpstreamOutcome) :
    Except HTTPExc (OutgoingRequest × Option ProxiedResponse) :=
  match outcome with
  | .success r => .ok (outgoingRequest cfg path req env, process_response r)
  | .timeoutExc => .error ⟨504, "Gateway timeout"⟩
  | .connectExc => .error ⟨502, "Bad gateway"⟩
  | .otherExc _ => .error ⟨500, "Internal server error"⟩

/-- Runtime value passed to ServiceFactory.create_session_service.  The
four config constructors mirror the SessionServiceConfig union of
config/services.py; otherValue stands for a Python object of any other
type, which the trailing else branch of the isinstance chain rejects. -/
inductive SessionConfigValue where
  | inMemorySessionConfig
  | mongoSessionConfig (mongo_url : String) (db_name : String)
  | redisSessionConfig (redis_url : String)
  | databaseSessionConfig (db_url : String)
  | otherValue (typeName : String)
deriving DecidableEq, Repr

/-- Session service instances the factory can construct, with the
constructor arguments the factory passes. -/
inductive SessionService where
  | inMemorySessionService
  | mongoSessionService (mongo_url : String) (db_name : String)
  | redisSessionService (redis_url : String)
  | databaseSessionService (db_url : String)
deriving DecidableEq, Repr

/-- Errors create_session_service can raise: ImportError when the
adk-extra-services package is missing, ValueError for an unknown config
type. -/
inductive FactoryError where
  | importErr (msg : String)
  | valueErr (msg : String)
deriving DecidableEq, Repr

/-- Model of ServiceFactory.create_session_service.  The flag
extrasAvailable models the module-level EXTRA_SESSIONS_AVAILABLE constant
set by the optional import of adk-extra-services. -/
def create_session_service (extrasAvailable : Bool) (config : SessionConfigValue) :
    Except FactoryError SessionService :=
  match config with
  | .inMemorySessionConfig => .ok .inMemorySessionService
  | .mongoSessionConfig mongo_url db_name =>
    if extrasAvailable then .ok (.mongoSessionService mongo_url db_name)
    else .error (.importErr "MongoSessionService requires adk-extra-services package")
  | .redisSessionConfig redis_url =>
    if extrasAvailable then .ok (.redisSessionService redis_url)
    else .error (.importErr "RedisSessionService requires adk-extra-services package")
  | .databaseSessionConfig db_url => .ok (.databaseSessionService db_url)
  | .otherValue typeName =>
    .error (.valueErr ("Unknown session service configuration type: " ++ typeName))

/-- Model of the Settings fields read by AuthService (config/settings.py).
auth_storage_type and session_service_type are strings here so that the
defensive else branch of _select_backend is statable; the Pydantic Literal
annotations restrict the validated values. -/
structure Settings where
  auth_storage_type : String := "auto"
  session_service_type : String := "inmemory"
  session_database_url : Option String := none
  auth_db_url : String := "sqlite+aiosqlite:///./data/auth.db"
  auth_mongo_url : Option String := none
  auth_mongo_db_name : Option String := none
  mongo_url : String := "mongodb://localhost:27017"
  mongo_db_name : String := "nbfc_analyst_sessions"
  jwt_secret_key : String := "your-secret-key-change-this-in-production"
  jwt_algorithm : String := "HS256"
  jwt_access_token_expire_days : Int := 7
deriving DecidableEq, Repr

/-- Auth storage backends AuthService._select_backend can construct, with
the constructor arguments it passes. -/
inductive AuthBackendChoice where
  | sqlAuthBackend (db_url : String)
  | mongoAuthBackend (url : String) (db : String)
  | inMemoryAuthBackend
deriving DecidableEq, Repr

/-- The three backend kinds behind the common AuthBackend interface. -/
inductive BackendKind where
  | sql
  | mongo
  | inmemory
deriving DecidableEq, Repr

def AuthBackendChoice.kind : AuthBackendChoice → BackendKind
  | .sqlAuthBackend _ => .sql
  | .mongoAuthBackend _ _ => .mongo
  | .inMemoryAuthBackend => .inmemory

/-- Model of AuthService._select_backend from services/auth.py. -/
def select_backend (st : Settings) : AuthBackendChoice :=
  let storage := st.auth_storage_type
  if storage = "auto" then
    if st.session_service_type = "mongo" then
      .mongoAuthBackend (pyOrStr st.auth_mongo_url st.mongo_url)
        (pyOrStr st.auth_mongo_db_name st.mongo_db_name)
    else if st.session_service_type = "database" ∧ pyTruthy st.session_database_url then
      .sqlAuthBackend ((st.session_database_url).getD "")
    else
      .sqlAuthBackend st.auth_db_url
  else if storage = "sqlite" ∨ storage = "database" then
    .sqlAuthBackend st.auth_db_url
  else if storage = "mongo" then
    .mongoAuthBackend (pyOrStr st.auth_mongo_url st.mongo_url)
      (pyOrStr st.auth_mongo_db_name st.mongo_db_name)
  else if storage = "inmemory" then
    .inMemoryAuthBackend
  else
    .sqlAuthBackend st.auth_db_url

/-- Model of a value the PyJWT calls in AuthService can produce or be
given: a signed token captures the payload dict written by
create_access_token together with the signing key and algorithm; malformed
stands for any string jwt.decode rejects as an invalid token. -/
inductive JwtToken where
  | signed (user_id : Option String) (exp : Int) (iat : Int)
      (key : String) (alg : String)
  | malformed (raw : String)
deriving DecidableEq, Repr

/-- Seconds in a day, for timedelta(days=n). -/
def secondsPerDay : Int := 86400

/-- Model of AuthService.create_access_token: the payload holds the user
id, an expiry of now plus jwt_access_token_expire_days, and the issue
time, signed with the configured secret and algorithm. -/
def create_access_token (st : Settings) (now : Int) (user_id : String) : JwtToken :=
  .signed (some user_id) (now + st.jwt_access_token_expire_days * secondsPerDay) now
    st.jwt_secret_key st.jwt_algorithm

/-- Model of AuthService.verify_token via PyJWT's jwt.decode semantics: a
malformed token and a token whose key or algorithm does not match raise
InvalidTokenError (None); a token whose exp claim is not in the future
raises ExpiredSignatureError (None); otherwise the payload's user_id entry
is returned. -/
def verify_token (st : Settings) (now : Int) (token : JwtToken) : Option String :=
  match token with
  | .malformed _ => none
  | .signed user_id exp _ key alg =>
    if key = st.jwt_secret_key ∧ alg = st.jwt_algorithm then
      if exp ≤ now then none else user_id
    else none

/-- Model of the User Pydantic model (models/auth.py) with the fields the
auth service sets. -/
structure User where
  id : String
  email : String
  username : String
  hashed_password : String
  created_at : Int
  is_active : Bool
deriving DecidableEq, Repr

/-- Model of the UserCreate request body. -/
structure UserCreate where
  email : String
  username : String
  password : String
deriving DecidableEq, Repr

/-- State of an InMemoryAuthBackend: the three dicts of
auth_backends/inmemory_backend.py. -/
structure InMemoryAuthBackend where
  users_by_id : List (String × User) := []
  id_by_email : List (String × String) := []
  id_by_username : List (String × String) := []

/-- Model of InMemoryAuthBackend.get_by_id. -/
def get_by_id (st : InMemoryAuthBackend) (user_id : String) : Option User :=
  dictGet user_id st.users_by_id

/-- Model of InMemoryAuthBackend.get_by_email_or_username, including the
Python truthiness test on the found id (an id that is None or the empty
string yields None). -/
def get_by_email_or_username (st : InMemoryAuthBackend) (identifier : String) :
    Option User :=
  let user_id :=
    match dictGet identifier st.id_by_email with
    | some s => if s = "" then dictGet identifier st.id_by_username else some s
    | none => dictGet identifier st.id_by_username
  match user_id with
  | some s => if s = "" then none else dictGet s st.users_by_id
  | none => none

/-- Model of InMemoryAuthBackend.create_user: store the user under its id
and index it by email and by username. -/
def create_user (st : InMemoryAuthBackend) (u : User) : InMemoryAuthBackend :=
  { users_by_id := dictInsert u.id u st.users_by_id
    id_by_email := dictInsert u.email u.id st.id_by_email
    id_by_username := dictInsert u.username u.id st.id_by_username }

/-- Model of AuthService.register_user over the in-memory backend.  The
generated id (a UTC timestamp string in Python) and the bcrypt hash of the
password are passed in as gen_id and hashed; now models
datetime.now(timezone.utc).  The returned state is the backend state after
the call, unchanged when a ValueError is raised. -/
def register_user (st : InMemoryAuthBackend) (user_data : UserCreate)
    (gen_id : String) (hashed : String) (now : Int) :
    Except String User × InMemoryAuthBackend :=
  match get_by_email_or_username st user_data.email with
  | some _ => (.error "Email already registered", st)
  | none =>
    match get_by_email_or_username st user_data.username with
    | some _ => (.error "Username already taken", st)
    | none =>
      let u : User :=
        { id := gen_id
          email := user_data.email
          username := user_data.username
          hashed_password := hashed
          created_at := now
          is_active := true }
      (.ok u, create_user st u)

/-- Well-formedness of an in-memory backend state, as established by the
register_user flow from the empty state: every index entry carries a
non-empty id that is a stored key, and every stored user is indexed under
its email and its username. -/
def BackendWF (st : InMemoryAuthBackend) : Prop :=
  (∀ e j, dictGet e st.id_by_email = some j →
    j ≠ "" ∧ ∃ u, dictGet j st.users_by_id = some u) ∧
  (∀ n j, dictGet n st.id_by_username = some j →
    j ≠ "" ∧ ∃ u, dictGet j st.users_by_id = some u) ∧
  (∀ i u, dictGet i st.users_by_id = some u →
    (∃ j, dictGet u.email st.id_by_email = some j) ∧
    (∃ j, dictGet u.username st.id_by_username = some j))

/-- Cache key for a URL.  The Python code uses the md5 hex digest of the
URL purely as a deterministic file name; the digest itself is opaque to
every claim, so the keying function is modelled as the URL string. -/
def get_cache_key (url : String) : String := url

/-- On-disk cache state of a SpecLoader: the {key}.json spec files and the
cached_at stamps of the {key}.meta files, with json.dump/json.loads
round-tripping modelled as the identity on stored Json values.  Times are
integer seconds standing for time.time(). -/
structure SpecCache where
  specFiles : List (String × Json) := []
  metaFiles : List (String × Int) := []

/-- Model of SpecLoader._get_cached_spec: requires both cache files to
exist, rejects the entry when now minus cached_at exceeds the TTL, and
otherwise returns the cached spec. -/
def get_cached_spec (cache : SpecCache) (now : Int) (url : String) (cache_ttl : Int) :
    Option Json :=
  let key := get_cache_key url
  match dictGet key cache.specFiles, dictGet key cache.metaFiles with
  | some spec, some cached_at =>
    if now - cached_at > cache_ttl then none else some spec
  | _, _ => none

/-- Model of SpecLoader._cache_spec: write the spec file and the metadata
file with the current time. -/
def cache_spec (cache : SpecCache) (now : Int) (url : String) (spec : Json) : SpecCache :=
  let key := get_cache_key url
  { specFiles := dictInsert key spec cache.specFiles
    metaFiles := dictInsert key now cache.metaFiles }

/-- Result of the network download attempted by _load_from_url: the parsed
spec on success, or an aiohttp.ClientError. -/
inductive DownloadResult where
  | fetched (spec : Json)
  | clientError (msg : String)

/-- Result of _load_from_url together with whether a download happened and
the cache state afterwards. -/
structure LoadResult where
  outcome : Except String Json
  downloaded : Bool
  cache : SpecCache

/-- Model of SpecLoader._load_from_url: consult the cache when enabled and
return a fresh hit without downloading; otherwise download, cache the
parsed spec when caching is enabled, and return it; a client error is
re-raised as a ValueError. -/
def load_from_url (cache : SpecCache) (now : Int) (url : String)
    (cache_enabled : Bool) (cache_ttl : Int) (network : DownloadResult) : LoadResult :=
  match
    (if cache_enabled then get_cached_spec cache now url cache_ttl else none) with
  | some cached => { outcome := .ok cached, downloaded := false, cache := cache }
  | none =>
    match network with
    | .fetched spec =>
      { outcome := .ok spec
        downloaded := true
        cache := if cache_enabled then cache_spec cache now url spec else cache }
    | .clientError msg =>
      { outcome := .error ("Failed to download OpenAPI spec from " ++ url ++ ": " ++ msg)
        downloaded := true
        cache := cache }

/-- Model of the FastMCPToolConfig dataclass (proxy_prefix rendered as
proxyPrefix). -/
structure FastMCPToolConfig where
  name : String
  server_url : String
  proxyPrefix : Option String := none
  auth : Option AuthDict := none
  tags : Option (List String) := none
  enabled : Bool := true
deriving DecidableEq, Repr

/-- Model of the CustomToolConfig dataclass; the Python handler callable
is abstracted to an opaque identifier. -/
structure CustomToolConfig where
  name : String
  handler : Nat
  methods : List String := ["GET", "POST"]
  proxyPrefix : Option String := none
  tags : Option (List String) := none
  enabled : Bool := true
deriving DecidableEq, Repr

/-- State of a ToolRegistry: the three name-keyed config dicts.  The cached
router and proxy-handler dict carry no configuration and are omitted. -/
structure ToolRegistry where
  api_tools : List (String × APIToolConfig) := []
  fastmcp_tools : List (String × FastMCPToolConfig) := []
  custom_tools : List (String × CustomToolConfig) := []

/-- Model of the Python expression tags or [] on an optional list.  A
present empty list is falsy and also yields [], so the two arms coincide
with Python truthiness here. -/
def pyOrNilList (a : Option (List String)) : List String :=
  match a with
  | some l => l
  | none => []

/-- Model of the Python expression a or b on an optional list, as in
methods or ["GET", "POST"]: None and the empty list are falsy and give
the default. -/
def pyOrList (a : Option (List String)) (b : List String) : List String :=
  match a with
  | some l => if l = [] then b else l
  | none => b

/-- The APIToolConfig that register_api_tool builds from its arguments,
with the documented defaults for tags and the proxy path. -/
def mkApiToolConfig (name : String) (spec_url : Option String) (base_url : String)
    (auth : Option AuthDict) (operations : Option (List String))
    (tags : Option (List String)) (enabled : Bool) (pfx : Option String) : APIToolConfig :=
  { name := name
    spec_url := spec_url
    base_url := base_url
    auth := auth
    operations := operations
    tags := some (pyOrNilList tags)
    enabled := enabled
    proxyPrefix := some (pyOrStr pfx ("/tools/" ++ name)) }

/-- The FastMCPToolConfig that register_fastmcp_tool builds. -/
def mkFastmcpToolConfig (name : String) (server_url : String) (pfx : Option String)
    (auth : Option AuthDict) (tags : Option (List String)) (enabled : Bool) :
    FastMCPToolConfig :=
  { name := name
    server_url := server_url
    proxyPrefix := some (pyOrStr pfx ("/tools/" ++ name))
    auth := auth
    tags := some (pyOrNilList tags)
    enabled := enabled }

/-- The CustomToolConfig that register_custom_tool builds; methods is
methods or ["GET", "POST"], so None and an explicit empty list both fall
back to the GET and POST default. -/
def mkCustomToolConfig (name : String) (handler : Nat) (methods : Option (List String))
    (pfx : Option String) (tags : Option (List String)) (enabled : Bool) :
    CustomToolConfig :=
  { name := name
    handler := handler
    methods := pyOrList methods ["GET", "POST"]
    proxyPrefix := some (pyOrStr pfx ("/tools/" ++ name))
    tags := some (pyOrNilList tags)
    enabled := enabled }

/-- Model of ToolRegistry.register_api_tool: build the APIToolConfig and
assign it under the name, replacing any earlier registration. -/
def register_api_tool (st : ToolRegistry) (name : String) (spec_url : Option String)
    (base_url : String) (auth : Option AuthDict) (operations : Option (List String))
    (tags : Option (List String)) (enabled : Bool) (pfx : Option String) : ToolRegistry :=
  { st with api_tools :=
      dictInsert name (mkApiToolConfig name spec_url base_url auth operations tags
        enabled pfx) st.api_tools }

/-- Model of ToolRegistry.register_fastmcp_tool. -/
def register_fastmcp_tool (st : ToolRegistry) (name : String) (server_url : String)
    (pfx : Option String) (auth : Option AuthDict) (tags : Option (List String))
    (enabled : Bool) : ToolRegistry :=
  { st with fastmcp_tools :=
      (dictInsert name (mkFastmcpToolConfig name server_url pfx auth tags enabled)
        st.fastmcp_tools) }

/-- Model of ToolRegistry.register_custom_tool. -/
def register_custom_tool (st : ToolRegistry) (name : String) (handler : Nat)
    (methods : Option (List String)) (pfx : Option String) (tags : Option (List String))
    (enabled : Bool) : ToolRegistry :=
  { st with custom_tools :=
      (dictInsert name (mkCustomToolConfig name handler methods pfx tags enabled)
        st.custom_tools) }

/-- A registration call made against the registry, for reasoning about
arbitrary call sequences. -/
inductive RegCmd where
  | api (name : String) (spec_url : Option String) (base_url : String)
      (auth : Option AuthDict) (operations : Option (List String))
      (tags : Option (List String)) (enabled : Bool) (pfx : Option String)
  | fastmcp (name : String) (server_url : String) (pfx : Option String)
      (auth : Option AuthDict) (tags : Option (List String)) (enabled : Bool)
  | custom (name : String) (handler : Nat) (methods : Option (List String))
      (pfx : Option String) (tags : Option (List String)) (enabled : Bool)

def applyRegCmd (st : ToolRegistry) : RegCmd → ToolRegistry
  | .api name spec_url base_url auth operations tags enabled pfx =>
    register_api_tool st name spec_url base_url auth operations tags enabled pfx
  | .fastmcp name server_url pfx auth tags enabled =>
    register_fastmcp_tool st name server_url pfx auth tags enabled
  | .custom name handler methods pfx tags enabled =>
    register_custom_tool st name handler methods pfx tags enabled

def emptyRegistry : ToolRegistry := {}

def runRegCmds (cmds : List RegCmd) : ToolRegistry :=
  cmds.foldl applyRegCmd emptyRegistry

/-- The API tool config a command sequence most recently registered under
a name, scanning later commands first. -/
def lastApiConfig : List RegCmd → String → Option APIToolConfig
  | [], _ => none
  | c :: rest, n =>
    match lastApiConfig rest n with
    | some cfg => some cfg
    | none =>
      match c with
      | .api name spec_url base_url auth operations tags enabled pfx =>
        if name = n then
          some (mkApiToolConfig name spec_url base_url auth operations tags enabled pfx)
        else none
      | _ => none

/-- The FastMCP tool config a command sequence most recently registered
under a name. -/
def lastFastmcpConfig : List RegCmd → String → Option FastMCPToolConfig
  | [], _ => none
  | c :: rest, n =>
    match lastFastmcpConfig rest n with
    | some cfg => some cfg
    | none =>
      match c with
      | .fastmcp name server_url pfx auth tags enabled =>
        if name = n then
          some (mkFastmcpToolConfig name server_url pfx auth tags enabled)
        else none
      | _ => none

/-- The custom tool config a command sequence most recently registered
under a name. -/
def lastCustomConfig : List RegCmd → String → Option CustomToolConfig
  | [], _ => none
  | c :: rest, n =>
    match lastCustomConfig rest n with
    | some cfg => some cfg
    | none =>
      match c with
      | .custom name handler methods pfx tags enabled =>
        if name = n then
          some (mkCustomToolConfig name handler methods pfx tags enabled)
        else none
      | _ => none

/-- Summary entry produced for an API tool by list_registered_tools. -/
structure ApiToolSummary where
  name : String
  base_url : String
  proxyPrefix : Option String
  enabled : Bool
  operations : Option (List String)
deriving DecidableEq, Repr

/-- Summary entry produced for a FastMCP tool by list_registered_tools. -/
structure FastmcpToolSummary where
  name : String
  server_url : String
  proxyPrefix : Option String
  enabled : Bool
deriving DecidableEq, Repr

/-- Summary entry produced for a custom tool by list_registered_tools. -/
structure CustomToolSummary where
  name : String
  methods : List String
  proxyPrefix : Option String
  enabled : Bool
deriving DecidableEq, Repr

def apiSummaryOf (c : APIToolConfig) : ApiToolSummary :=
  { name := c.name, base_url := c.base_url, proxyPrefix := c.proxyPrefix,
    enabled := c.enabled, operations := c.operations }

def fastmcpSummaryOf (c : FastMCPToolConfig) : FastmcpToolSummary :=
  { name := c.name, server_url := c.server_url, proxyPrefix := c.proxyPrefix,
    enabled := c.enabled }

def customSummaryOf (c : CustomToolConfig) : CustomToolSummary :=
  { name := c.name, methods := c.methods, proxyPrefix := c.proxyPrefix,
    enabled := c.enabled }

/-- Model of ToolRegistry.list_registered_tools: the three dict
comprehensions over the registry state, one summary entry per stored
name. -/
def list_registered_tools (st : ToolRegistry) :
    List (String × ApiToolSummary) × List (String × FastmcpToolSummary) ×
      List (String × CustomToolSummary) :=
  (st.api_tools.map (fun kv => (kv.1, apiSummaryOf kv.2)),
   st.fastmcp_tools.map (fun kv => (kv.1, fastmcpSummaryOf kv.2)),
   st.custom_tools.map (fun kv => (kv.1, customSummaryOf kv.2)))

/-- Request and config exhibiting a header the proxy does not forward. -/
def hostReq : IncomingRequest :=
  { method := "GET", headers := [("Host", "internal.example.com")],
    body := [], query_params := [] }

def petstoreCfg : APIToolConfig :=
  { name := "petstore", base_url := "https://petstore.example.com" }

/-- Upstream response exhibiting a header the proxy does not relay. -/
def upstreamJsonResp : UpstreamResponse :=
  { status_code := 200,
    headers := [("content-type", "application/json"), ("connection", "keep-alive")],
    text := "", json_result := some (.obj []), bytes := [] }

/-- Example user record for concrete instances. -/
def aliceUser : User :=
  { id := "20260101000000000000", email := "a@example.com", username := "alice",
    hashed_password := "h", created_at := 0, is_active := true }

/-- Example registration request for concrete instances. -/
def aliceData : UserCreate :=
  { email := "a@example.com", username := "alice", password := "pw" }

/-! Supporting lemmas about the dict model. -/

theorem dictGet_dictInsert {α : Type} (k j : String) (v : α) (d : List (String × α)) :
    dictGet k (dictInsert j v d) = if j = k then some v else dictGet k d := by
  induction d with
  | nil => simp [dictInsert, dictGet]
  | cons kv rest ih =>
    by_cases hj : kv.1 = j
    · rw [show dictInsert j v (kv :: rest) = (j, v) :: rest by simp [dictInsert, hj]]
      by_cases hk : j = k
      · simp [dictGet, hk]
      · have hkvk : ¬ kv.1 = k := fun h => hk (hj ▸ h)
        simp [dictGet, hk, hkvk]
    · rw [show dictInsert j v (kv :: rest) = kv :: dictInsert j v rest by
        simp [dictInsert, hj]]
      by_cases hkvk : kv.1 = k
      · have hk : ¬ j = k := fun h => hj (hkvk.trans h.symm)
        simp [dictGet, hkvk, hk]
      · simp [dictGet, hkvk, ih]

theorem dictGet_dictUpdate {α : Type} (k : String) (u d : List (String × α)) :
    dictGet k (dictUpdate d u) =
      (match dictGetLast k u with
       | some v => some v
       | none => dictGet k d) := by
  induction u generalizing d with
  | nil => simp [dictUpdate, dictGetLast]
  | cons kv rest ih =>
    have step : dictUpdate d (kv :: rest) = dictUpdate (dictInsert kv.1 kv.2 d) rest := by
      simp [dictUpdate, List.foldl]
    rw [step, ih]
    cases hlast : dictGetLast k rest with
    | some v => simp [dictGetLast, hlast]
    | none =>
      by_cases hk : kv.1 = k <;>
        simp [dictGetLast, hlast, hk, dictGet_dictInsert]

theorem mem_dictKeys_dictInsert {α : Type} (k j : String) (v : α) (d : List (String × α)) :
    j ∈ dictKeys (dictInsert k v d) ↔ j = k ∨ j ∈ dictKeys d := by
  induction d with
  | nil => simp [dictInsert, dictKeys]
  | cons kv rest ih =>
    by_cases h : kv.1 = k
    · rw [show dictInsert k v (kv :: rest) = (k, v) :: rest by simp [dictInsert, h]]
      simp only [dictKeys, List.map_cons, List.mem_cons]
      constructor
      · rintro (h1 | h2)
        · exact Or.inl h1
        · exact Or.inr (Or.inr h2)
      · rintro (h1 | h2 | h3)
        · exact Or.inl h1
        · exact Or.inl (h2.trans h)
        · exact Or.inr h3
    · rw [show dictInsert k v (kv :: rest) = kv :: dictInsert k v rest by
        simp [dictInsert, h]]
      simp only [dictKeys, List.map_cons, List.mem_cons] at ih ⊢
      rw [ih]
      tauto

theorem nodup_dictKeys_dictInsert {α : Type} (k : String) (v : α) (d : List (String × α))
    (hd : (dictKeys d).Nodup) : (dictKeys (dictInsert k v d)).Nodup := by
  induction d with
  | nil => simp [dictInsert, dictKeys]
  | cons kv rest ih =>
    simp only [dictKeys, List.map_cons, List.nodup_cons] at hd
    by_cases h : kv.1 = k
    · rw [show dictInsert k v (kv :: rest) = (k, v) :: rest by simp [dictInsert, h]]
      simp only [dictKeys, List.map_cons, List.nodup_cons]
      exact ⟨h ▸ hd.1, hd.2⟩
    · rw [show dictInsert k v (kv :: rest) = kv :: dictInsert k v rest by
        simp [dictInsert, h]]
      simp only [dictKeys, List.map_cons, List.nodup_cons]
      refine ⟨?_, ih hd.2⟩
      intro hmem
      rcases (mem_dictKeys_dictInsert k kv.1 v rest).mp hmem with h1 | h2
      · exact h h1
      · exact hd.1 h2

theorem mem_keys_of_dictGetLast_some {α : Type} (k : String) (v : α) :
    ∀ l : List (String × α), dictGetLast k l = some v → k ∈ l.map Prod.fst
  | kv :: rest, h => by
    simp only [dictGetLast] at h
    cases h2 : dictGetLast k rest with
    | some w =>
      rw [h2] at h
      exact List.mem_cons.mpr (Or.inr (mem_keys_of_dictGetLast_some k w rest h2))
    | none =>
      rw [h2] at h
      by_cases hk : kv.1 = k
      · exact List.mem_cons.mpr (Or.inl hk.symm)
      · simp [hk] at h

theorem dictGetLast_of_nodup {α : Type} (k : String) (v : α) (l : List (String × α))
    (hmem : (k, v) ∈ l) (hnd : (l.map Prod.fst).Nodup) : dictGetLast k l = some v := by
  induction l with
  | nil => cases hmem
  | cons kv rest ih =>
    simp only [List.map_cons, List.nodup_cons] at hnd
    rcases List.mem_cons.mp hmem with heq | htail
    · have hk1 : kv.1 = k := by rw [← heq]
      have hv : kv.2 = v := by rw [← heq]
      have hrest : dictGetLast k rest = none := by
        cases h2 : dictGetLast k rest with
        | none => rfl
        | some w =>
          exact absurd (mem_keys_of_dictGetLast_some k w rest h2) (hk1 ▸ hnd.1)
      simp [dictGetLast, hrest, hk1, hv]
    · have := ih htail hnd.2
      simp [dictGetLast, this]

theorem pyLower_bearer : pyLower "bearer" = "bearer" := rfl

theorem pyLower_api_key : pyLower "api_key" = "api_key" := rfl

theorem pyLower_basic : pyLower "basic" = "basic" := rfl

theorem api_key_ne_bearer : ("api_key" : String) ≠ "bearer" := by decide

theorem basic_ne_bearer : ("basic" : String) ≠ "bearer" := by decide

theorem basic_ne_api_key : ("basic" : String) ≠ "api_key" := by decide

theorem dictGetLast_singleton {α : Type} (k : String) (v : α) :
    dictGetLast k [(k, v)] = some v := by
  simp [dictGetLast]

/-- When _prepare_auth_headers produces a single header, that header wins
in the final prepared header dict, whatever the incoming request held. -/
theorem dictGet_prepare_headers_single (a : AuthDict) (env : Env)
    (reqHeaders : List (String × String)) (hk hv : String)
    (h : prepare_auth_headers (some a) env = [(hk, hv)]) :
    dictGet hk (prepare_headers (some a) env reqHeaders) = some hv := by
  simp only [prepare_headers]
  rw [h, dictGet_dictUpdate, dictGetLast_singleton]

/-! Claim theorems. -/

/-- C2: ServiceFactory.create_session_service selects by the config's
type: InMemorySessionService for an in-memory config, MongoSessionService
with the config's mongo_url and db_name for a Mongo config,
RedisSessionService with the config's redis_url for a Redis config,
DatabaseSessionService with the config's db_url for a database config,
and a ValueError for a value of any other type.  The Mongo and Redis
branches are taken with the adk-extra-services package installed
(extrasAvailable = true); without it they raise ImportError instead. -/
theorem create_session_service_selection :
    (∀ avail, create_session_service avail .inMemorySessionConfig
      = .ok .inMemorySessionService) ∧
    (∀ u d, create_session_service true (.mongoSessionConfig u d)
      = .ok (.mongoSessionService u d)) ∧
    (∀ r, create_session_service true (.redisSessionConfig r)
      = .ok (.redisSessionService r)) ∧
    (∀ avail u, create_session_service avail (.databaseSessionConfig u)
      = .ok (.databaseSessionService u)) ∧
    (∀ avail t, create_session_service avail (.otherValue t)
      = .error (.valueErr ("Unknown session service configuration type: " ++ t))) := by
  refine ⟨fun avail => ?_, fun u d => rfl, fun r => rfl, fun avail u => ?_,
    fun avail t => ?_⟩ <;> cases avail <;> rfl

/-- C3: AuthService._select_backend is total and returns one of exactly
three backend kinds (SQL, Mongo, in-memory): sqlite and database give the
SQL backend on auth_db_url, mongo gives the Mongo backend, inmemory gives
the in-memory backend, auto follows the session service type (mongo for a
mongo session service, SQL otherwise), and an unrecognized storage type
falls back to the SQL backend rather than raising. -/
theorem select_backend_three_kinds (st : Settings) :
    ((select_backend st).kind = .sql ∨ (select_backend st).kind = .mongo ∨
      (select_backend st).kind = .inmemory) ∧
    (st.auth_storage_type = "sqlite" ∨ st.auth_storage_type = "database" →
      select_backend st = .sqlAuthBackend st.auth_db_url) ∧
    (st.auth_storage_type = "mongo" →
      select_backend st = .mongoAuthBackend (pyOrStr st.auth_mongo_url st.mongo_url)
        (pyOrStr st.auth_mongo_db_name st.mongo_db_name)) ∧
    (st.auth_storage_type = "inmemory" → select_backend st = .inMemoryAuthBackend) ∧
    (st.auth_storage_type = "auto" →
      (st.session_service_type = "mongo" → (select_backend st).kind = .mongo) ∧
      (st.session_service_type ≠ "mongo" → (select_backend st).kind = .sql)) ∧
    (st.auth_storage_type ∉ ["auto", "sqlite", "database", "mongo", "inmemory"] →
      select_backend st = .sqlAuthBackend st.auth_db_url) := by
  refine ⟨?_, ?_, ?_, ?_, ?_, ?_⟩
  · cases hsel : select_backend st <;> simp [AuthBackendChoice.kind, hsel]
  · intro h
    have hne : ¬ st.auth_storage_type = "auto" := by
      rcases h with h | h <;> simp [h]
    simp [select_backend, hne, h]
  · intro h
    simp [select_backend, h]
  · intro h
    simp [select_backend, h]
  · intro h
    constructor
    · intro hm
      simp [select_backend, h, hm, AuthBackendChoice.kind]
    · intro hm
      simp only [select_backend, h, hm]
      split_ifs <;> simp_all [AuthBackendChoice.kind]
  · intro h
    simp only [List.mem_cons, List.mem_singleton] at h
    push_neg at h
    obtain ⟨h1, h2, h3, h4, h5⟩ := h
    simp [select_backend, h1, h2, h3, h4, h5]

/-- Closed instance of select_backend_three_kinds: the inmemory and
unrecognized storage types at concrete settings. -/
theorem select_backend_three_kinds_witness :
    select_backend { auth_storage_type := "inmemory" } = .inMemoryAuthBackend ∧
    select_backend { auth_storage_type := "dynamodb" }
      = .sqlAuthBackend "sqlite+aiosqlite:///./data/auth.db" := by
  constructor
  · exact (select_backend_three_kinds { auth_storage_type := "inmemory" }).2.2.2.1 rfl
  · exact (select_backend_three_kinds { auth_storage_type := "dynamodb" }).2.2.2.2.2
      (by decide)

/-- C4: the JWT round-trip.  With the same settings, verifying a token
created for a user id before its expiry time (issue time plus
jwt_access_token_expire_days, in seconds) yields that user id; a token
whose expiry has passed verifies to none, as does a malformed token or a
token signed with a different key. -/
theorem jwt_round_trip (st : Settings) (uid : String) (tIssue tVerify : Int) :
    (tVerify < tIssue + st.jwt_access_token_expire_days * secondsPerDay →
      verify_token st tVerify (create_access_token st tIssue uid) = some uid) ∧
    (tIssue + st.jwt_access_token_expire_days * secondsPerDay ≤ tVerify →
      verify_token st tVerify (create_access_token st tIssue uid) = none) ∧
    (∀ raw, verify_token st tVerify (.malformed raw) = none) ∧
    (∀ p e i a, ∀ k, k ≠ st.jwt_secret_key →
      verify_token st tVerify (.signed p e i k a) = none) := by
  refine ⟨?_, ?_, fun raw => rfl, ?_⟩
  · intro h
    have hx : ¬ (tIssue + st.jwt_access_token_expire_days * secondsPerDay ≤ tVerify) := by
      omega
    simp [verify_token, create_access_token, hx]
  · intro h
    simp [verify_token, create_access_token, h]
  · intro p e i a k hk
    simp [verify_token, hk]

/-- Closed instance of jwt_round_trip at the default settings. -/
theorem jwt_round_trip_witness :
    verify_token {} 100 (create_access_token {} 0 "alice") = some "alice" ∧
    verify_token {} 700000 (create_access_token {} 0 "alice") = none := by
  constructor
  · exact (jwt_round_trip {} "alice" 0 100).1 (by decide)
  · exact (jwt_round_trip {} "alice" 0 700000).2.1 (by decide)

/-- C9: proxy_request turns an upstream timeout into HTTP 504 Gateway
timeout, an upstream connection failure into HTTP 502 Bad gateway, and
any other internal error into HTTP 500 Internal server error; every
failing run raises one of exactly these three HTTPExceptions. -/
theorem proxy_request_error_mapping (cfg : APIToolConfig) (path : String)
    (req : IncomingRequest) (env : Env) :
    (proxy_request cfg path req env .timeoutExc = .error ⟨504, "Gateway timeout"⟩) ∧
    (proxy_request cfg path req env .connectExc = .error ⟨502, "Bad gateway"⟩) ∧
    (∀ msg, proxy_request cfg path req env (.otherExc msg)
      = .error ⟨500, "Internal server error"⟩) ∧
    (∀ outcome e, proxy_request cfg path req env outcome = .error e →
      e = ⟨504, "Gateway timeout"⟩ ∨ e = ⟨502, "Bad gateway"⟩ ∨
        e = ⟨500, "Internal server error"⟩) := by
  refine ⟨rfl, rfl, fun msg => rfl, ?_⟩
  intro outcome e h
  cases outcome with
  | success r => cases h
  | timeoutExc => exact Or.inl (by cases h; rfl)
  | connectExc => exact Or.inr (Or.inl (by cases h; rfl))
  | otherExc msg => exact Or.inr (Or.inr (by cases h; rfl))

/-- Closed instance of proxy_request_error_mapping on a timeout at a
concrete tool config and request. -/
theorem proxy_request_error_mapping_witness :
    (⟨504, "Gateway timeout"⟩ : HTTPExc) = ⟨504, "Gateway timeout"⟩ ∨
    (⟨504, "Gateway timeout"⟩ : HTTPExc) = ⟨502, "Bad gateway"⟩ ∨
    (⟨504, "Gateway timeout"⟩ : HTTPExc) = ⟨500, "Internal server error"⟩ :=
  (proxy_request_error_mapping { name := "github" } "repos"
    { method := "GET", headers := [], body := [], query_params := [] } []).2.2.2
    .timeoutExc ⟨504, "Gateway timeout"⟩ rfl

/-- C5: auth-header injection.  A bearer auth config whose token_env names
a set environment variable makes every proxied outgoing request carry
Authorization: Bearer followed by that variable's value; an api_key config
with location header adds the key under key_name (default X-API-Key); a
basic config adds Authorization: Basic followed by base64 of
username:password; and when the named environment variables are absent no
auth header is added. -/
theorem auth_header_injection (a : AuthDict) (env : Env)
    (reqHeaders : List (String × String)) :
    (∀ t tok, a.type = some "bearer" → a.token_env = some t → t ≠ "" →
      dictGet t env = some tok →
      dictGet "Authorization" (prepare_headers (some a) env reqHeaders)
        = some ("Bearer " ++ tok)) ∧
    (∀ ke key, a.type = some "api_key" → a.key_env = some ke → ke ≠ "" →
      dictGet ke env = some key → pyLower ((a.location).getD "header") = "header" →
      dictGet ((a.key_name).getD "X-API-Key") (prepare_headers (some a) env reqHeaders)
        = some key) ∧
    (∀ ue pe u p, a.type = some "basic" → a.username_env = some ue →
      a.password_env = some pe → ue ≠ "" → pe ≠ "" →
      dictGet ue env = some u → dictGet pe env = some p →
      dictGet "Authorization" (prepare_headers (some a) env reqHeaders)
        = some ("Basic " ++ base64EncodeBytes (utf8Bytes (u ++ ":" ++ p)))) ∧
    (∀ t, a.type = some "bearer" → a.token_env = some t → dictGet t env = none →
      prepare_auth_headers (some a) env = []) ∧
    (∀ ke, a.type = some "api_key" → a.key_env = some ke → dictGet ke env = none →
      prepare_auth_headers (some a) env = []) ∧
    (∀ ue pe, a.type = some "basic" → a.username_env = some ue →
      a.password_env = some pe →
      (dictGet ue env = none ∨ dictGet pe env = none) →
      prepare_auth_headers (some a) env = []) ∧
    (prepare_auth_headers (some a) env = [] →
      prepare_headers (some a) env reqHeaders = prepare_headers none env reqHeaders) := by
  refine ⟨?_, ?_, ?_, ?_, ?_, ?_, ?_⟩
  · intro t tok h1 h2 h3 h4
    refine dictGet_prepare_headers_single a env reqHeaders _ _ ?_
    simp [prepare_auth_headers, h1, h2, h3, h4, pyLower_bearer]
  · intro ke key h1 h2 h3 h4 h5
    refine dictGet_prepare_headers_single a env reqHeaders _ _ ?_
    simp [prepare_auth_headers, h1, h2, h3, h4, h5, pyLower_api_key, api_key_ne_bearer]
  · intro ue pe u p h1 h2 h3 h4 h5 h6 h7
    refine dictGet_prepare_headers_single a env reqHeaders _ _ ?_
    simp [prepare_auth_headers, h1, h2, h3, h4, h5, h6, h7, pyLower_basic,
      basic_ne_bearer, basic_ne_api_key]
  · intro t h1 h2 h3
    by_cases ht : t = "" <;>
      simp [prepare_auth_headers, h1, h2, h3, ht, pyLower_bearer]
  · intro ke h1 h2 h3
    by_cases hk : ke = "" <;>
      simp [prepare_auth_headers, h1, h2, h3, hk, pyLower_api_key, api_key_ne_bearer]
  · intro ue pe h1 h2 h3 h4
    by_cases hu : ue = ""
    · simp [prepare_auth_headers, h1, h2, h3, hu, pyLower_basic,
        basic_ne_bearer, basic_ne_api_key]
    · by_cases hp : pe = ""
      · simp [prepare_auth_headers, h1, h2, h3, hu, hp, pyLower_basic,
          basic_ne_bearer, basic_ne_api_key]
      · rcases h4 with h4 | h4 <;>
          · cases hgu : dictGet ue env <;> cases hgp : dictGet pe env <;>
              simp_all [prepare_auth_headers, pyLower_basic,
                basic_ne_bearer, basic_ne_api_key]
  · intro h
    simp only [prepare_headers, h]
    rfl

/-- Closed instance of auth_header_injection: a bearer tool config with a
set token variable injects the Authorization header. -/
theorem auth_header_injection_witness :
    dictGet "Authorization"
      (prepare_headers (some { type := some "bearer", token_env := some "GITHUB_TOKEN" })
        [("GITHUB_TOKEN", "tok123")] [("Accept", "application/json")])
      = some ("Bearer " ++ "tok123") :=
  (auth_header_injection { type := some "bearer", token_env := some "GITHUB_TOKEN" }
    [("GITHUB_TOKEN", "tok123")] [("Accept", "application/json")]).1
    "GITHUB_TOKEN" "tok123" rfl rfl (by decide) (by decide)

/-- C6: spec caching round-trip.  After _cache_spec stores a spec for a
URL, a _load_from_url for that URL with caching enabled and elapsed time
at most cache_ttl returns the cached spec without downloading and leaves
the cache unchanged; once the elapsed time exceeds cache_ttl the cached
entry is not used and the spec is downloaded again. -/
theorem spec_cache_round_trip (cache : SpecCache) (t0 now : Int) (url : String)
    (spec : Json) (ttl : Int) (network : DownloadResult) :
    (now - t0 ≤ ttl →
      load_from_url (cache_spec cache t0 url spec) now url true ttl network
        = { outcome := .ok spec, downloaded := false,
            cache := cache_spec cache t0 url spec }) ∧
    (now - t0 > ttl →
      ((load_from_url (cache_spec cache t0 url spec) now url true ttl network).downloaded
        = true) ∧
      (∀ spec2, network = .fetched spec2 →
        (load_from_url (cache_spec cache t0 url spec) now url true ttl network).outcome
          = .ok spec2)) := by
  constructor
  · intro h
    have hc : get_cached_spec (cache_spec cache t0 url spec) now url ttl = some spec := by
      simp [get_cached_spec, cache_spec, get_cache_key, dictGet_dictInsert]
      omega
    simp [load_from_url, hc]
  · intro h
    have hc : get_cached_spec (cache_spec cache t0 url spec) now url ttl = none := by
      simp [get_cached_spec, cache_spec, get_cache_key, dictGet_dictInsert]
      omega
    constructor
    · cases network <;> simp [load_from_url, hc]
    · intro spec2 hn
      subst hn
      simp [load_from_url, hc]

/-- Closed instance of spec_cache_round_trip: a fresh cache entry is
served without a download even when the network would fail. -/
theorem spec_cache_round_trip_witness :
    load_from_url (cache_spec {} 0 "https://api.example.com/openapi.json" Json.null)
        100 "https://api.example.com/openapi.json" true 3600 (.clientError "down")
      = { outcome := .ok Json.null, downloaded := false,
          cache := cache_spec {} 0 "https://api.example.com/openapi.json" Json.null } :=
  (spec_cache_round_trip {} 0 100 "https://api.example.com/openapi.json" Json.null 3600
    (.clientError "down")).1 (by decide)

theorem dictGet_map {α β : Type} (k : String) (f : α → β) (d : List (String × α)) :
    dictGet k (d.map (fun kv => (kv.1, f kv.2))) = (dictGet k d).map f := by
  induction d with
  | nil => simp [dictGet]
  | cons kv rest ih =>
    by_cases h : kv.1 = k <;> simp [dictGet, h, ih]

theorem dictKeys_map {α β : Type} (f : α → β) (d : List (String × α)) :
    dictKeys (d.map (fun kv => (kv.1, f kv.2))) = dictKeys d := by
  simp [dictKeys, List.map_map]

theorem api_tools_foldl (cmds : List RegCmd) (st : ToolRegistry) (n : String) :
    dictGet n ((cmds.foldl applyRegCmd st).api_tools) =
      (match lastApiConfig cmds n with
       | some c => some c
       | none => dictGet n st.api_tools) := by
  induction cmds generalizing st with
  | nil => simp [lastApiConfig]
  | cons c rest ih =>
    rw [List.foldl_cons, ih]
    cases hl : lastApiConfig rest n with
    | some cfg => simp [lastApiConfig, hl]
    | none =>
      cases c with
      | api name spec_url base_url auth operations tags enabled pfx =>
        simp only [lastApiConfig, hl, applyRegCmd, register_api_tool]
        rw [dictGet_dictInsert]
        by_cases hn : name = n <;> simp [hn]
      | fastmcp name server_url pfx auth tags enabled =>
        simp [lastApiConfig, hl, applyRegCmd, register_fastmcp_tool]
      | custom name handler methods pfx tags enabled =>
        simp [lastApiConfig, hl, applyRegCmd, register_custom_tool]

theorem fastmcp_tools_foldl (cmds : List RegCmd) (st : ToolRegistry) (n : String) :
    dictGet n ((cmds.foldl applyRegCmd st).fastmcp_tools) =
      (match lastFastmcpConfig cmds n with
       | some c => some c
       | none => dictGet n st.fastmcp_tools) := by
  induction cmds generalizing st with
  | nil => simp [lastFastmcpConfig]
  | cons c rest ih =>
    rw [List.foldl_cons, ih]
    cases hl : lastFastmcpConfig rest n with
    | some cfg => simp [lastFastmcpConfig, hl]
    | none =>
      cases c with
      | api name spec_url base_url auth operations tags enabled pfx =>
        simp [lastFastmcpConfig, hl, applyRegCmd, register_api_tool]
      | fastmcp name server_url pfx auth tags enabled =>
        simp only [lastFastmcpConfig, hl, applyRegCmd, register_fastmcp_tool]
        rw [dictGet_dictInsert]
        by_cases hn : name = n <;> simp [hn]
      | custom name handler methods pfx tags enabled =>
        simp [lastFastmcpConfig, hl, applyRegCmd, register_custom_tool]

theorem custom_tools_foldl (cmds : List RegCmd) (st : ToolRegistry) (n : String) :
    dictGet n ((cmds.foldl applyRegCmd st).custom_tools) =
      (match lastCustomConfig cmds n with
       | some c => some c
       | none => dictGet n st.custom_tools) := by
  induction cmds generalizing st with
  | nil => simp [lastCustomConfig]
  | cons c rest ih =>
    rw [List.foldl_cons, ih]
    cases hl : lastCustomConfig rest n with
    | some cfg => simp [lastCustomConfig, hl]
    | none =>
      cases c with
      | api name spec_url base_url auth operations tags enabled pfx =>
        simp [lastCustomConfig, hl, applyRegCmd, register_api_tool]
      | fastmcp name server_url pfx auth tags enabled =>
        simp [lastCustomConfig, hl, applyRegCmd, register_fastmcp_tool]
      | custom name handler methods pfx tags enabled =>
        simp only [lastCustomConfig, hl, applyRegCmd, register_custom_tool]
        rw [dictGet_dictInsert]
        by_cases hn : name = n <;> simp [hn]

theorem registry_foldl_nodup (cmds : List RegCmd) (st : ToolRegistry)
    (h1 : (dictKeys st.api_tools).Nodup) (h2 : (dictKeys st.fastmcp_tools).Nodup)
    (h3 : (dictKeys st.custom_tools).Nodup) :
    (dictKeys ((cmds.foldl applyRegCmd st).api_tools)).Nodup ∧
    (dictKeys ((cmds.foldl applyRegCmd st).fastmcp_tools)).Nodup ∧
    (dictKeys ((cmds.foldl applyRegCmd st).custom_tools)).Nodup := by
  induction cmds generalizing st with
  | nil => exact ⟨h1, h2, h3⟩
  | cons c rest ih =>
    rw [List.foldl_cons]
    cases c with
    | api name spec_url base_url auth operations tags enabled pfx =>
      exact ih _ (nodup_dictKeys_dictInsert _ _ _ h1) h2 h3
    | fastmcp name server_url pfx auth tags enabled =>
      exact ih _ h1 (nodup_dictKeys_dictInsert _ _ _ h2) h3
    | custom name handler methods pfx tags enabled =>
      exact ih _ h1 h2 (nodup_dictKeys_dictInsert _ _ _ h3)

/-- C7: the registry state is a mapping from tool name to config within
each tool category.  After any sequence of register_api_tool,
register_fastmcp_tool and register_custom_tool calls, each category's dict
has pairwise distinct names (re-registering a name replaces the earlier
config instead of duplicating it), lookup of a name yields the most
recently registered configuration for that name, and
list_registered_tools reports exactly one entry per registered name
holding the summary of that most recent configuration. -/
theorem registry_maps_name_to_latest_config (cmds : List RegCmd) (n : String) :
    ((dictKeys (runRegCmds cmds).api_tools).Nodup ∧
     (dictKeys (runRegCmds cmds).fastmcp_tools).Nodup ∧
     (dictKeys (runRegCmds cmds).custom_tools).Nodup) ∧
    (dictGet n (runRegCmds cmds).api_tools = lastApiConfig cmds n) ∧
    (dictGet n (runRegCmds cmds).fastmcp_tools = lastFastmcpConfig cmds n) ∧
    (dictGet n (runRegCmds cmds).custom_tools = lastCustomConfig cmds n) ∧
    (dictGet n (list_registered_tools (runRegCmds cmds)).1
      = (lastApiConfig cmds n).map apiSummaryOf) ∧
    (dictGet n (list_registered_tools (runRegCmds cmds)).2.1
      = (lastFastmcpConfig cmds n).map fastmcpSummaryOf) ∧
    (dictGet n (list_registered_tools (runRegCmds cmds)).2.2
      = (lastCustomConfig cmds n).map customSummaryOf) ∧
    ((dictKeys (list_registered_tools (runRegCmds cmds)).1).Nodup ∧
     (dictKeys (list_registered_tools (runRegCmds cmds)).2.1).Nodup ∧
     (dictKeys (list_registered_tools (runRegCmds cmds)).2.2).Nodup) := by
  have hnd := registry_foldl_nodup cmds emptyRegistry (by simp [emptyRegistry, dictKeys])
    (by simp [emptyRegistry, dictKeys]) (by simp [emptyRegistry, dictKeys])
  have hapi : dictGet n (runRegCmds cmds).api_tools = lastApiConfig cmds n := by
    rw [runRegCmds, api_tools_foldl]
    cases lastApiConfig cmds n <;> simp [emptyRegistry, dictGet]
  have hmcp : dictGet n (runRegCmds cmds).fastmcp_tools = lastFastmcpConfig cmds n := by
    rw [runRegCmds, fastmcp_tools_foldl]
    cases lastFastmcpConfig cmds n <;> simp [emptyRegistry, dictGet]
  have hcus : dictGet n (runRegCmds cmds).custom_tools = lastCustomConfig cmds n := by
    rw [runRegCmds, custom_tools_foldl]
    cases lastCustomConfig cmds n <;> simp [emptyRegistry, dictGet]
  refine ⟨hnd, hapi, hmcp, hcus, ?_, ?_, ?_, ?_, ?_, ?_⟩
  · rw [list_registered_tools, dictGet_map, hapi]
  · rw [list_registered_tools, dictGet_map, hmcp]
  · rw [list_registered_tools, dictGet_map, hcus]
  · rw [list_registered_tools, dictKeys_map]
    exact hnd.1
  · rw [list_registered_tools, dictKeys_map]
    exact hnd.2.1
  · rw [list_registered_tools, dictKeys_map]
    exact hnd.2.2

theorem foldl_cond_insert_eq_update {α : Type} (p : String × α → Bool)
    (l : List (String × α)) (acc : List (String × α)) :
    (l.foldl (fun acc kv => if p kv then acc else dictInsert kv.1 kv.2 acc) acc)
      = dictUpdate acc (l.filter (fun kv => !(p kv))) := by
  induction l generalizing acc with
  | nil => rfl
  | cons kv rest ih =>
    rw [List.foldl_cons, List.filter_cons]
    cases h : p kv with
    | false =>
      rw [if_neg (by simp [h]), if_pos (by simp [h]), ih]
      rfl
    | true =>
      rw [if_pos (by simp [h]), if_neg (by simp [h]), ih]

theorem dictGetLast_eq_none_of_dictGet_eq_none {α : Type} (k : String)
    (l : List (String × α)) (h : dictGet k l = none) : dictGetLast k l = none := by
  induction l with
  | nil => rfl
  | cons kv rest ih =>
    by_cases hk : kv.1 = k
    · simp [dictGet, hk] at h
    · simp only [dictGet, hk, if_neg, ite_false] at h
      simp [dictGetLast, ih h, hk]

/-- C1 counterexample: the incoming Host header does not appear in the
outgoing upstream request — _prepare_headers drops the skip-listed header
names — so not every header of the incoming request is forwarded. -/
theorem proxy_request_header_passthrough_counterexample :
    ("Host", "internal.example.com") ∈ hostReq.headers ∧
    (outgoingRequest petstoreCfg "pets" hostReq []).headers = [] := by
  constructor
  · decide
  · decide

/-- C1 amended: proxy_request forwards the request to the upstream URL
built from the tool's base_url and the path, forwards the full request
body, and forwards every incoming header except those in the skip list
(host, content-length, connection, upgrade, proxy-connection,
proxy-authenticate, proxy-authorization, te, trailers, transfer-encoding)
and those overridden by the configured auth headers. -/
theorem proxy_request_forwards_headers_and_body (cfg : APIToolConfig) (path : String)
    (req : IncomingRequest) (env : Env) (k v : String)
    (hnd : (req.headers.map Prod.fst).Nodup)
    (hmem : (k, v) ∈ req.headers)
    (hskip : requestSkipHeaders.contains (pyLower k) = false)
    (hauth : dictGet k (prepare_auth_headers cfg.auth env) = none) :
    dictGet k (outgoingRequest cfg path req env).headers = some v ∧
    (outgoingRequest cfg path req env).url
      = build_target_url (rstripSlash cfg.base_url) path ∧
    (outgoingRequest cfg path req env).content = get_request_body req ∧
    (outgoingRequest cfg path req env).method = req.method ∧
    (outgoingRequest cfg path req env).params = req.query_params := by
  refine ⟨?_, rfl, rfl, rfl, rfl⟩
  show dictGet k (prepare_headers cfg.auth env req.headers) = some v
  have hfland : (req.headers.filter
      (fun kv => !(requestSkipHeaders.contains (pyLower kv.1)))).map Prod.fst
        |>.Nodup :=
    hnd.sublist ((List.filter_sublist _).map _)
  have hmemf : (k, v) ∈ req.headers.filter
      (fun kv => !(requestSkipHeaders.contains (pyLower kv.1))) := by
    refine List.mem_filter.mpr ⟨hmem, ?_⟩
    simpa using hskip
  have hlastf := dictGetLast_of_nodup k v _ hmemf hfland
  have hlasta := dictGetLast_eq_none_of_dictGet_eq_none k _ hauth
  simp only [prepare_headers]
  rw [foldl_cond_insert_eq_update (fun kv => requestSkipHeaders.contains (pyLower kv.1))]
  rw [dictGet_dictUpdate, hlasta, dictGet_dictUpdate, hlastf]

/-- Closed instance of proxy_request_forwards_headers_and_body: a
non-skip-listed Accept header is forwarded unchanged. -/
theorem proxy_request_forwards_headers_and_body_witness :
    dictGet "Accept"
      (outgoingRequest petstoreCfg "pets"
        { method := "GET", headers := [("Accept", "application/json")],
          body := [], query_params := [] } []).headers
      = some "application/json" :=
  (proxy_request_forwards_headers_and_body petstoreCfg "pets"
    { method := "GET", headers := [("Accept", "application/json")],
      body := [], query_params := [] } [] "Accept" "application/json"
    (by decide) (by decide) (by decide) (by decide)).1

/-- C8 counterexample: the upstream connection header is not carried by
the response returned to the caller — _process_response drops the
skip-listed response header names — so the returned response does not
carry all of the upstream's response headers. -/
theorem process_response_relay_counterexample :
    ("connection", "keep-alive") ∈ upstreamJsonResp.headers ∧
    process_response upstreamJsonResp
      = some (.jsonResponse (.obj []) 200 [("content-type", "application/json")]) ∧
    dictGet "connection" [("content-type", "application/json")] = none := by
  refine ⟨by decide, rfl, by decide⟩

/-- C8 amended: for every upstream response the returned response carries
the upstream's status code, its body (the parsed JSON re-serialized for
application/json content types, the decoded text for textual content
types, the raw bytes streamed otherwise) and its response headers except
content-length, content-encoding, connection, transfer-encoding and
upgrade — except that for an application/json content type whose body
does not parse as JSON the handler returns no response at all (it falls
off the end and returns None). -/
theorem process_response_relays_status_body_headers (r : UpstreamResponse) :
    (∀ resp, process_response r = some resp →
      resp.status = r.status_code ∧
      resp.headerDict = processedResponseHeaders r.headers) ∧
    (∀ j, strContains (response_content_type r) "application/json" = true →
      r.json_result = some j →
      process_response r
        = some (.jsonResponse j r.status_code (processedResponseHeaders r.headers))) ∧
    (strContains (response_content_type r) "application/json" = true →
      r.json_result = none → process_response r = none) ∧
    (strContains (response_content_type r) "application/json" = false →
      (strContains (response_content_type r) "text/"
        || strContains (response_content_type r) "application/xml") = true →
      process_response r = some (.textResponse r.text r.status_code
        (processedResponseHeaders r.headers) (response_content_type r))) ∧
    (strContains (response_content_type r) "application/json" = false →
      (strContains (response_content_type r) "text/"
        || strContains (response_content_type r) "application/xml") = false →
      process_response r = some (.streamingResponse r.bytes r.status_code
        (processedResponseHeaders r.headers) (response_content_type r))) ∧
    (∀ k v, (r.headers.map Prod.fst).Nodup → (k, v) ∈ r.headers →
      responseSkipHeaders.contains (pyLower k) = false →
      dictGet k (processedResponseHeaders r.headers) = some v) := by
  refine ⟨?_, ?_, ?_, ?_, ?_, ?_⟩
  · intro resp h
    simp only [process_response] at h
    cases h1 : strContains (response_content_type r) "application/json" with
    | true =>
      cases hj : r.json_result with
      | some j =>
        rw [h1, hj] at h
        simp at h
        subst h
        exact ⟨rfl, rfl⟩
      | none =>
        rw [h1, hj] at h
        simp at h
    | false =>
      rw [h1] at h
      cases h2 : (strContains (response_content_type r) "text/"
          || strContains (response_content_type r) "application/xml") with
      | true =>
        rw [h2] at h
        simp at h
        subst h
        exact ⟨rfl, rfl⟩
      | false =>
        rw [h2] at h
        simp at h
        subst h
        exact ⟨rfl, rfl⟩
  · intro j h1 hj
    simp [process_response, h1, hj]
  · intro h1 hj
    simp [process_response, h1, hj]
  · intro h1 h2
    simp [process_response, h1, h2]
  · intro h1 h2
    simp [process_response, h1, h2]
  · intro k v hnd hmem hskip
    have hfland : (r.headers.filter
        (fun kv => !(responseSkipHeaders.contains (pyLower kv.1)))).map Prod.fst
          |>.Nodup :=
      hnd.sublist ((List.filter_sublist _).map _)
    have hmemf : (k, v) ∈ r.headers.filter
        (fun kv => !(responseSkipHeaders.contains (pyLower kv.1))) := by
      refine List.mem_filter.mpr ⟨hmem, ?_⟩
      simpa using hskip
    have hlastf := dictGetLast_of_nodup k v _ hmemf hfland
    simp only [processedResponseHeaders]
    rw [foldl_cond_insert_eq_update
      (fun kv => responseSkipHeaders.contains (pyLower kv.1))]
    rw [dictGet_dictUpdate, hlastf]

/-- Closed instance of process_response_relays_status_body_headers: a
textual upstream response is relayed with its status, text and
non-skip-listed headers. -/
theorem process_response_relay_witness :
    process_response
        { status_code := 201,
          headers := [("content-type", "text/plain"), ("x-request-id", "r1")],
          text := "created", json_result := none, bytes := [] }
      = some (.textResponse "created" 201
          [("content-type", "text/plain"), ("x-request-id", "r1")] "text/plain") :=
  (process_response_relays_status_body_headers
    { status_code := 201,
      headers := [("content-type", "text/plain"), ("x-request-id", "r1")],
      text := "created", json_result := none, bytes := [] }).2.2.2.1
    (by decide) (by decide)

theorem backendWF_empty : BackendWF {} := by
  refine ⟨?_, ?_, ?_⟩ <;> intro a b h <;> simp [dictGet] at h

/-- With a well-formed backend, a lookup by an identifier that hits either
index resolves to some stored user. -/
theorem get_by_email_or_username_of_indexed (st : InMemoryAuthBackend)
    (hwf : BackendWF st) (x : String)
    (hx : (∃ j, dictGet x st.id_by_email = some j) ∨
      (∃ j, dictGet x st.id_by_username = some j)) :
    ∃ w, get_by_email_or_username st x = some w := by
  cases he : dictGet x st.id_by_email with
  | some j =>
    obtain ⟨hj, w, hw⟩ := hwf.1 x j he
    exact ⟨w, by simp [get_by_email_or_username, he, hj, hw]⟩
  | none =>
    rcases hx with ⟨j, hj⟩ | ⟨j, hj⟩
    · rw [he] at hj
      cases hj
    · obtain ⟨hjne, w, hw⟩ := hwf.2.1 x j hj
      exact ⟨w, by simp [get_by_email_or_username, he, hj, hjne, hw]⟩

/-- Well-formedness is preserved by a successful register_user with a
non-empty generated id (the Python id is a UTC timestamp string, never
empty). -/
theorem backendWF_register_user (st : InMemoryAuthBackend) (data : UserCreate)
    (gen_id hashed : String) (now : Int) (hwf : BackendWF st) (hid : gen_id ≠ "")
    (u : User) (st2 : InMemoryAuthBackend)
    (h : register_user st data gen_id hashed now = (.ok u, st2)) :
    BackendWF st2 := by
  cases hc1 : get_by_email_or_username st data.email with
  | some w => simp [register_user, hc1] at h
  | none =>
    cases hc2 : get_by_email_or_username st data.username with
    | some w => simp [register_user, hc1, hc2] at h
    | none =>
      simp only [register_user, hc1, hc2, Prod.mk.injEq, Except.ok.injEq] at h
      obtain ⟨h1, h2⟩ := h
      subst h1
      subst h2
      refine ⟨?_, ?_, ?_⟩
      · intro e j hj
        rw [create_user] at hj
        simp only [dictGet_dictInsert] at hj
        by_cases he : data.email = e
        · rw [if_pos he] at hj
          cases hj
          refine ⟨hid, ?_⟩
          simp [create_user, dictGet_dictInsert]
        · rw [if_neg he] at hj
          obtain ⟨hjne, w, hw⟩ := hwf.1 e j hj
          refine ⟨hjne, ?_⟩
          by_cases hg : gen_id = j
          · simp [create_user, dictGet_dictInsert, hg]
          · simp [create_user, dictGet_dictInsert, hg, hw]
      · intro n j hj
        rw [create_user] at hj
        simp only [dictGet_dictInsert] at hj
        by_cases he : data.username = n
        · rw [if_pos he] at hj
          cases hj
          refine ⟨hid, ?_⟩
          simp [create_user, dictGet_dictInsert]
        · rw [if_neg he] at hj
          obtain ⟨hjne, w, hw⟩ := hwf.2.1 n j hj
          refine ⟨hjne, ?_⟩
          by_cases hg : gen_id = j
          · simp [create_user, dictGet_dictInsert, hg]
          · simp [create_user, dictGet_dictInsert, hg, hw]
      · intro i w hw
        rw [create_user] at hw
        simp only [dictGet_dictInsert] at hw
        by_cases hg : gen_id = i
        · rw [if_pos hg] at hw
          cases hw
          constructor
          · simp [create_user, dictGet_dictInsert]
          · simp [create_user, dictGet_dictInsert]
        · rw [if_neg hg] at hw
          obtain ⟨⟨j1, hj1⟩, j2, hj2⟩ := hwf.2.2 i w hw
          constructor
          · by_cases he : data.email = w.email
            · simp [create_user, dictGet_dictInsert, he]
            · simp [create_user, dictGet_dictInsert, he, hj1]
          · by_cases he : data.username = w.username
            · simp [create_user, dictGet_dictInsert, he]
            · simp [create_user, dictGet_dictInsert, he, hj2]

/-- C10: register_user is atomic with respect to duplicates over the
in-memory backend.  On a well-formed state, if a stored user already has
the requested email or the requested username, register_user returns a
ValueError and the backend state is unchanged; and whenever it returns
successfully, the created user carries the requested email and username
and is retrievable by its generated id, by email and by username. -/
theorem register_user_atomic_duplicates (st : InMemoryAuthBackend)
    (data : UserCreate) (gen_id hashed : String) (now : Int) (hwf : BackendWF st) :
    ((∃ i u, dictGet i st.users_by_id = some u ∧
        (u.email = data.email ∨ u.username = data.username)) →
      ∃ msg, register_user st data gen_id hashed now = (.error msg, st)) ∧
    (∀ u st2, gen_id ≠ "" →
      register_user st data gen_id hashed now = (.ok u, st2) →
      get_by_id st2 gen_id = some u ∧
      get_by_email_or_username st2 data.email = some u ∧
      get_by_email_or_username st2 data.username = some u ∧
      u.email = data.email ∧ u.username = data.username ∧ u.id = gen_id) := by
  constructor
  · rintro ⟨i, u, hu, hcase | hcase⟩
    · obtain ⟨⟨j, hje⟩, _⟩ := hwf.2.2 i u hu
      rw [hcase] at hje
      obtain ⟨w, hw⟩ := get_by_email_or_username_of_indexed st hwf data.email
        (Or.inl ⟨j, hje⟩)
      exact ⟨"Email already registered", by simp [register_user, hw]⟩
    · obtain ⟨_, j, hjn⟩ := hwf.2.2 i u hu
      rw [hcase] at hjn
      obtain ⟨w, hw⟩ := get_by_email_or_username_of_indexed st hwf data.username
        (Or.inr ⟨j, hjn⟩)
      cases hc1 : get_by_email_or_username st data.email with
      | some w1 => exact ⟨"Email already registered", by simp [register_user, hc1]⟩
      | none => exact ⟨"Username already taken", by simp [register_user, hc1, hw]⟩
  · intro u st2 hid h
    cases hc1 : get_by_email_or_username st data.email with
    | some w => simp [register_user, hc1] at h
    | none =>
      cases hc2 : get_by_email_or_username st data.username with
      | some w => simp [register_user, hc1, hc2] at h
      | none =>
        simp only [register_user, hc1, hc2, Prod.mk.injEq, Except.ok.injEq] at h
        obtain ⟨h1, h2⟩ := h
        subst h1
        subst h2
        have hemail_none : dictGet data.username st.id_by_email = none := by
          cases hx : dictGet data.username st.id_by_email with
          | none => rfl
          | some j =>
            obtain ⟨hjne, w, hw⟩ := hwf.1 _ _ hx
            simp [get_by_email_or_username, hx, hjne, hw] at hc2
        refine ⟨?_, ?_, ?_, rfl, rfl, rfl⟩
        · simp [get_by_id, create_user, dictGet_dictInsert]
        · simp [get_by_email_or_username, create_user, dictGet_dictInsert, hid]
        · by_cases heq : data.email = data.username
          · simp [get_by_email_or_username, create_user, dictGet_dictInsert, heq, hid]
          · simp [get_by_email_or_username, create_user, dictGet_dictInsert, heq,
              hemail_none, hid]

/-- Closed instance of register_user_atomic_duplicates: registering a user
on the empty backend succeeds and the user is retrievable by id, email
and username. -/
theorem register_user_atomic_duplicates_witness :
    get_by_id (create_user {} aliceUser) "20260101000000000000" = some aliceUser ∧
    get_by_email_or_username (create_user {} aliceUser) "alice" = some aliceUser := by
  have h := (register_user_atomic_duplicates {} aliceData "20260101000000000000" "h" 0
    backendWF_empty).2 aliceUser (create_user {} aliceUser) (by decide) rfl
  exact ⟨h.1, h.2.2.1⟩

end AdkTemplate
